import Mathlib

/-!
Shallow embedding of the visual-testing pipeline of this repository:
sitemap resolution (src/sitemap-utils.ts), retry/backoff, error
classification and URL utilities (src/visual-testing-utils.ts), and the
prod-vs-preview orchestration (src/compare-prod-and-preview.ts).
JavaScript strings are Lean strings, numbers are Int/Rat as appropriate,
thrown exceptions are Except values, and the filesystem / network are
passed in explicitly as data.
-/

/-- Substring test on character lists: true when `pat` occurs contiguously.
Models the JavaScript `String.prototype.includes` method. -/
def charsHaveSub (pat : List Char) : List Char → Bool
  | [] => pat.isEmpty
  | c :: cs => pat.isPrefixOf (c :: cs) || charsHaveSub pat cs

/-- Models `s.includes(pat)` from JavaScript. -/
def strIncludes (s pat : String) : Bool :=
  charsHaveSub pat.data s.data

/-- Models `s.startsWith(pat)` from JavaScript. -/
def strStartsWith (s pat : String) : Bool :=
  pat.data.isPrefixOf s.data

/-- Models `s.endsWith(pat)` from JavaScript (used for the `$`-anchored
exclude regexes of compare-prod-and-preview.ts). -/
def strEndsWith (s pat : String) : Bool :=
  pat.data.reverse.isPrefixOf s.data.reverse

/-- Models `s.toLowerCase()` from JavaScript (ASCII case folding). -/
def strToLower (s : String) : String :=
  String.mk (s.data.map Char.toLower)

/-- Models `s.trim()` from JavaScript. -/
def jsTrim (s : String) : String :=
  String.mk (((s.data.dropWhile Char.isWhitespace).reverse.dropWhile
    Char.isWhitespace).reverse)

/-- Error types for visual test failures (enum ErrorType,
src/visual-testing-utils.ts lines 27-33). -/
inductive ErrorType where
  | NETWORK_TIMEOUT
  | SCREENSHOT_FAILURE
  | COMPARISON_ERROR
  | FILE_IO_ERROR
  | UNKNOWN
deriving DecidableEq, Repr

/-- JavaScript error values as seen by getErrorMessage: an Error object
carrying a message, or a thrown string. -/
inductive JsError where
  | errObj (message : String)
  | str (s : String)
deriving DecidableEq, Repr

/-- getErrorMessage (src/visual-testing-utils.ts lines 60-74): Error
instances yield their message, thrown strings yield themselves. -/
def getErrorMessage : JsError → String
  | .errObj m => m
  | .str s => s

/-- classifyError (src/visual-testing-utils.ts lines 452-473): lowercase
the message, then test the keyword groups in order. -/
def classifyError (e : JsError) : ErrorType :=
  let message := strToLower (getErrorMessage e)
  if strIncludes message "timeout" || strIncludes message "etimedout" ||
      strIncludes message "abort" then
    ErrorType.NETWORK_TIMEOUT
  else if strIncludes message "screenshot" || strIncludes message "capture" then
    ErrorType.SCREENSHOT_FAILURE
  else if strIncludes message "enoent" || strIncludes message "eacces" then
    ErrorType.FILE_IO_ERROR
  else if strIncludes message "compare" || strIncludes message "pixelmatch" then
    ErrorType.COMPARISON_ERROR
  else
    ErrorType.UNKNOWN

/-- Classifier written from the spec sentence of claim C6 (taxonomy
keywords "timeout/aborted", "screenshot/capture", "not-found/permission",
"compare/diff"), for comparison against the code's classifyError. -/
def specClassifyError (e : JsError) : ErrorType :=
  let message := strToLower (getErrorMessage e)
  if strIncludes message "timeout" || strIncludes message "aborted" then
    ErrorType.NETWORK_TIMEOUT
  else if strIncludes message "screenshot" || strIncludes message "capture" then
    ErrorType.SCREENSHOT_FAILURE
  else if strIncludes message "not-found" || strIncludes message "permission" then
    ErrorType.FILE_IO_ERROR
  else if strIncludes message "compare" || strIncludes message "diff" then
    ErrorType.COMPARISON_ERROR
  else
    ErrorType.UNKNOWN

/-- The keyword groups actually tested by classifyError, in source order. -/
def classifyRules : List (List String × ErrorType) :=
  [ (["timeout", "etimedout", "abort"], ErrorType.NETWORK_TIMEOUT),
    (["screenshot", "capture"], ErrorType.SCREENSHOT_FAILURE),
    (["enoent", "eacces"], ErrorType.FILE_IO_ERROR),
    (["compare", "pixelmatch"], ErrorType.COMPARISON_ERROR) ]

/-- First-match-wins semantics over an ordered rule list, defaulting to
UNKNOWN when no rule matches. -/
def firstMatchKind (message : String) : List (List String × ErrorType) → ErrorType
  | [] => ErrorType.UNKNOWN
  | (pats, k) :: rest =>
    if pats.any (fun p => strIncludes message p) then k
    else firstMatchKind message rest

/-- urlToFilename (src/visual-testing-utils.ts lines 153-155): replace
every character outside [a-zA-Z0-9] by an underscore, then lowercase. -/
def isAsciiAlphanum (c : Char) : Bool :=
  ('a' ≤ c && c ≤ 'z') || ('A' ≤ c && c ≤ 'Z') || ('0' ≤ c && c ≤ '9')

/-- urlToFilename itself. -/
def urlToFilename (url : String) : String :=
  strToLower (String.mk (url.data.map (fun c =>
    if isAsciiAlphanum c then c else '_')))

/-- Cache file name used by getCachedProdScreenshot / cacheProdScreenshot
(src/compare-prod-and-preview.ts lines 199-227): the normalized URL plus
the fixed role suffix. -/
def cacheFileName (url : String) : String :=
  urlToFilename url ++ "_prod.png"

/-- Model of the WHATWG URL constructor (`new URL(u)`) restricted to what
transformUrl consumes: its origin, for absolute http(s) URLs; any other
input makes the constructor throw, modelled as none. -/
def parseOrigin (u : String) : Option String :=
  if strStartsWith u "http://" then
    let host := (u.data.drop 7).takeWhile
      (fun c => c ≠ '/' && c ≠ '?' && c ≠ '#')
    if host.isEmpty then none else some ("http://" ++ String.mk host)
  else if strStartsWith u "https://" then
    let host := (u.data.drop 8).takeWhile
      (fun c => c ≠ '/' && c ≠ '?' && c ≠ '#')
    if host.isEmpty then none else some ("https://" ++ String.mk host)
  else none

/-- Replace the first occurrence of `pat` in a character list, as
JavaScript `String.prototype.replace` with a string pattern does. -/
def replaceFirstChars (pat repl : List Char) : List Char → List Char
  | [] => []
  | c :: cs =>
    if pat.isPrefixOf (c :: cs) then repl ++ (c :: cs).drop pat.length
    else c :: replaceFirstChars pat repl cs

/-- Models `originalUrl.replace(origin, newBaseDomain)`. -/
def jsReplaceFirst (s pat repl : String) : String :=
  String.mk (replaceFirstChars pat.data repl.data s.data)

/-- transformUrl (src/visual-testing-utils.ts lines 567-580): a falsy
newBaseDomain (null or empty) returns the original URL; a URL-constructor
failure is caught, logged, and the original URL returned. -/
def transformUrl (originalUrl : String) (newBaseDomain : Option String) : String :=
  match newBaseDomain with
  | none => originalUrl
  | some nb =>
    if nb = "" then originalUrl
    else
      match parseOrigin originalUrl with
      | some origin => jsReplaceFirst originalUrl origin nb
      | none => originalUrl

/-- String append is right-cancellative (used for cache-key reasoning). -/
theorem strAppend_right_cancel {a b s : String} (h : a ++ s = b ++ s) :
    a = b := by
  have hd := congrArg String.data h
  rw [String.data_append, String.data_append] at hd
  exact String.ext ((List.append_left_inj s.data).mp hd)

/-- C6 counterexample: the message "diff" is classified UNKNOWN by the
code, while the claim's taxonomy (ComparisonError when the message
mentions compare/diff) demands COMPARISON_ERROR. -/
theorem classifyError_claim_counterexample :
    classifyError (JsError.str "diff") = ErrorType.UNKNOWN ∧
    specClassifyError (JsError.str "diff") = ErrorType.COMPARISON_ERROR ∧
    classifyError (JsError.str "diff") ≠ specClassifyError (JsError.str "diff") := by
  refine ⟨by decide, by decide, by decide⟩

/-- C6 (amended): classifyError is total and applies the code's keyword
groups (timeout/etimedout/abort, screenshot/capture, enoent/eacces,
compare/pixelmatch) in order with the first matching group winning,
falling back to UNKNOWN; classification never throws. -/
theorem classifyError_first_match_total (e : JsError) :
    classifyError e = firstMatchKind (strToLower (getErrorMessage e)) classifyRules := by
  simp only [classifyError, firstMatchKind, classifyRules, List.any_cons,
    List.any_nil, Bool.or_false, Bool.or_assoc]

/-- C9 counterexample: two distinct target URLs that differ only in a
non-alphanumeric character produce the same cache filename. -/
theorem cacheFileName_collision_counterexample :
    ("https://example.com/a-b" : String) ≠ "https://example.com/a_b" ∧
    cacheFileName "https://example.com/a-b" = cacheFileName "https://example.com/a_b" := by
  refine ⟨by decide, by decide⟩

/-- C9 (amended): the cache key transform is deterministic, and it is
collision-avoiding only up to the normalization: two URLs receive the
same cache filename exactly when their normalized forms coincide (so
URLs differing only in case or in which non-alphanumeric characters they
contain do collide). -/
theorem cacheFileName_deterministic_inj_up_to_normalization (u1 u2 : String) :
    (u1 = u2 → cacheFileName u1 = cacheFileName u2) ∧
    (cacheFileName u1 = cacheFileName u2 ↔ urlToFilename u1 = urlToFilename u2) := by
  refine ⟨fun h => by rw [h], ?_, ?_⟩
  · exact fun h => strAppend_right_cancel h
  · intro h
    unfold cacheFileName
    rw [h]

/-- C9 witness: the amended theorem applied at two concrete URLs that
differ only in case, exhibiting the collision through the iff. -/
theorem cacheFileName_deterministic_inj_witness :
    cacheFileName "https://example.com/a" = cacheFileName "HTTPS://EXAMPLE.COM/A" :=
  (cacheFileName_deterministic_inj_up_to_normalization
    "https://example.com/a" "HTTPS://EXAMPLE.COM/A").2.mpr (by decide)

/-- C10: transformUrl with a null replacement domain returns the original
URL unchanged, and when the original URL cannot be parsed it also returns
the original URL unchanged; the function is total, never raising to its
caller. -/
theorem transformUrl_never_throws (originalUrl : String) (nb : Option String) :
    transformUrl originalUrl none = originalUrl ∧
    (parseOrigin originalUrl = none → transformUrl originalUrl nb = originalUrl) := by
  refine ⟨rfl, fun h => ?_⟩
  cases nb with
  | none => rfl
  | some s =>
    by_cases hs : s = ""
    · simp [transformUrl, hs]
    · simp [transformUrl, hs, h]

/-- C10 witness: a string that is not a URL is returned unchanged. -/
theorem transformUrl_never_throws_witness :
    transformUrl "not a url" (some "https://preview.example") = "not a url" :=
  (transformUrl_never_throws "not a url" (some "https://preview.example")).2 (by decide)

/-- Retry options (interface RetryOptions, src/visual-testing-utils.ts
lines 45-51); absent fields are none, mirroring undefined. -/
structure RetryOptions where
  retries : Option Int := none
  retryDelayMs : Option ℚ := none
  maxRetryDelayMs : Option ℚ := none
  backoffMultiplier : Option ℚ := none
  jitter : Option Bool := none

/-- Math.max(0, options.retries ?? DEFAULT_RETRIES), line 102. -/
def normRetries (o : RetryOptions) : Nat :=
  (o.retries.getD 2).toNat

/-- Math.max(1, options.retryDelayMs ?? DEFAULT_RETRY_DELAY_MS), line 103. -/
def normRetryDelayMs (o : RetryOptions) : ℚ :=
  max 1 (o.retryDelayMs.getD 1000)

/-- Math.max(retryDelayMs, options.maxRetryDelayMs ?? DEFAULT_MAX), line 107. -/
def normMaxRetryDelayMs (o : RetryOptions) : ℚ :=
  max (normRetryDelayMs o) (o.maxRetryDelayMs.getD 10000)

/-- Math.max(1, options.backoffMultiplier ?? DEFAULT_MULTIPLIER), line 111. -/
def normBackoffMultiplier (o : RetryOptions) : ℚ :=
  max 1 (o.backoffMultiplier.getD 2)

/-- options.jitter ?? true, line 115. -/
def normJitter (o : RetryOptions) : Bool :=
  o.jitter.getD true

/-- Math.round for non-negative values: round half toward positive infinity. -/
def jsRound (q : ℚ) : ℤ :=
  ⌊q + 1/2⌋

/-- The pre-jitter delay computed after the attempt-th failure
(src/visual-testing-utils.ts lines 129-132):
min(maxRetryDelayMs, Math.round(retryDelayMs * multiplier^(attempt-1))). -/
def computeBaseDelay (o : RetryOptions) (attempt : Nat) : ℚ :=
  min (normMaxRetryDelayMs o)
    ((jsRound (normRetryDelayMs o * normBackoffMultiplier o ^ (attempt - 1)) : ℤ) : ℚ)

/-- The delay actually slept (lines 133-135): with jitter enabled,
Math.max(1, Math.round(baseDelay * (0.8 + random * 0.4))) where the
random draw r lies in [0, 1); otherwise the base delay itself. -/
def jitteredDelayMs (o : RetryOptions) (attempt : Nat) (r : ℚ) : ℚ :=
  if normJitter o then
    max 1 ((jsRound (computeBaseDelay o attempt * (4/5 + r * (2/5))) : ℤ) : ℚ)
  else computeBaseDelay o attempt

/-- The retry loop of withRetry (src/visual-testing-utils.ts lines
117-145), abstracted over the outcome of each invocation: op k is what
the k-th invocation (0-based) returns or throws.  Yields the final
result together with the total number of invocations performed.  The
sleeping between attempts (whose durations are computeBaseDelay /
jitteredDelayMs) does not affect the result. -/
def withRetryRun {ε α : Type} (op : Nat → Except ε α) (retries : Nat)
    (attempt : Nat) : Except ε α × Nat :=
  match op attempt with
  | .ok a => (.ok a, attempt + 1)
  | .error e =>
    if _h : attempt + 1 > retries then (.error e, attempt + 1)
    else withRetryRun op retries (attempt + 1)
termination_by retries + 1 - attempt
decreasing_by omega

/-- withRetry's result for a given operation and options. -/
def withRetry {ε α : Type} (op : Nat → Except ε α) (o : RetryOptions) :
    Except ε α :=
  (withRetryRun op (normRetries o) 0).1

/-- The number of times withRetry invokes the operation. -/
def withRetryAttempts {ε α : Type} (op : Nat → Except ε α) (o : RetryOptions) :
    Nat :=
  (withRetryRun op (normRetries o) 0).2

theorem withRetryRun_first_success {ε α : Type} (op : Nat → Except ε α)
    (retries : Nat) :
    ∀ d attempt k a, k = attempt + d → k ≤ retries →
      (∀ j, attempt ≤ j → j < k → (op j).isOk = false) → op k = .ok a →
      withRetryRun op retries attempt = (.ok a, k + 1) := by
  intro d
  induction d with
  | zero =>
    intro attempt k a hk _ _ hok
    have : attempt = k := by omega
    subst this
    rw [withRetryRun, hok]
  | succ n ih =>
    intro attempt k a hk hle hfail hok
    have hfa : (op attempt).isOk = false := hfail attempt le_rfl (by omega)
    cases hoa : op attempt with
    | ok v => rw [hoa] at hfa; simp [Except.isOk, Except.toBool] at hfa
    | error e =>
      rw [withRetryRun, hoa]
      dsimp only
      have hcond : ¬(attempt + 1 > retries) := by omega
      rw [dif_neg hcond]
      exact ih (attempt + 1) k a (by omega) hle
        (fun j hj1 hj2 => hfail j (by omega) hj2) hok

theorem withRetryRun_all_fail {ε α : Type} (op : Nat → Except ε α)
    (retries : Nat) :
    ∀ d attempt, retries = attempt + d →
      (∀ j, attempt ≤ j → j ≤ retries → (op j).isOk = false) →
      withRetryRun op retries attempt = (op retries, retries + 1) := by
  intro d
  induction d with
  | zero =>
    intro attempt hk hfail
    have ha : attempt = retries := by omega
    subst ha
    have hfa := hfail attempt le_rfl le_rfl
    cases hoa : op attempt with
    | ok v => rw [hoa] at hfa; simp [Except.isOk, Except.toBool] at hfa
    | error e =>
      rw [withRetryRun, hoa]
      dsimp only
      rw [dif_pos (by omega)]
  | succ n ih =>
    intro attempt hk hfail
    have hfa := hfail attempt le_rfl (by omega)
    cases hoa : op attempt with
    | ok v => rw [hoa] at hfa; simp [Except.isOk, Except.toBool] at hfa
    | error e =>
      rw [withRetryRun, hoa]
      dsimp only
      have hcond : ¬(attempt + 1 > retries) := by omega
      rw [dif_neg hcond]
      exact ih (attempt + 1) (by omega)
        (fun j hj1 hj2 => hfail j (by omega) hj2)

theorem withRetryRun_count_le {ε α : Type} (op : Nat → Except ε α)
    (retries : Nat) :
    ∀ d attempt, retries + 1 - attempt ≤ d →
      (withRetryRun op retries attempt).2 ≤ max (retries + 1) (attempt + 1) := by
  intro d
  induction d with
  | zero =>
    intro attempt hd
    cases hoa : op attempt with
    | ok v => rw [withRetryRun, hoa]; dsimp only; omega
    | error e =>
      rw [withRetryRun, hoa]
      dsimp only
      rw [dif_pos (by omega)]
      dsimp only
      omega
  | succ n ih =>
    intro attempt hd
    cases hoa : op attempt with
    | ok v => rw [withRetryRun, hoa]; dsimp only; omega
    | error e =>
      rw [withRetryRun, hoa]
      dsimp only
      by_cases hcond : attempt + 1 > retries
      · rw [dif_pos hcond]; dsimp only; omega
      · rw [dif_neg hcond]
        have := ih (attempt + 1) (by omega)
        omega

/-- C3: withRetry invokes the operation at most retries+1 times; if the
first success is invocation k (all earlier ones failing), the result is
that invocation's value after exactly k+1 attempts with no error raised;
if all retries+1 invocations fail, the last error is propagated
unchanged after exactly retries+1 attempts. -/
theorem withRetry_contract {ε α : Type} (op : Nat → Except ε α)
    (o : RetryOptions) :
    withRetryAttempts op o ≤ normRetries o + 1 ∧
    (∀ k a, k ≤ normRetries o → (∀ j, j < k → (op j).isOk = false) →
       op k = .ok a →
       withRetry op o = .ok a ∧ withRetryAttempts op o = k + 1) ∧
    ((∀ j, j ≤ normRetries o → (op j).isOk = false) →
       withRetry op o = op (normRetries o) ∧
       withRetryAttempts op o = normRetries o + 1) := by
  refine ⟨?_, ?_, ?_⟩
  · have h := withRetryRun_count_le op (normRetries o) (normRetries o + 1) 0
      (by omega)
    unfold withRetryAttempts
    omega
  · intro k a hk hfail hok
    have h := withRetryRun_first_success op (normRetries o) k 0 k a
      (by omega) hk (fun j _ hj => hfail j hj) hok
    unfold withRetry withRetryAttempts
    rw [h]
    exact ⟨rfl, rfl⟩
  · intro hfail
    have h := withRetryRun_all_fail op (normRetries o) (normRetries o) 0
      (by omega) (fun j _ hj => hfail j hj)
    unfold withRetry withRetryAttempts
    rw [h]
    exact ⟨rfl, rfl⟩

/-- Concrete operation for the C3 witness: fails twice, then succeeds. -/
def c3Op : Nat → Except JsError Nat := fun k =>
  if k < 2 then Except.error (JsError.str "boom") else Except.ok 7

/-- Options with retries = 2 for the C3 witness. -/
def c3Options : RetryOptions := { retries := some 2 }

/-- C3 witness: with retries = 2 and an operation failing twice then
succeeding, withRetry makes exactly 3 attempts and succeeds. -/
theorem withRetry_contract_witness :
    withRetry c3Op c3Options = Except.ok 7 ∧
    withRetryAttempts c3Op c3Options = 3 := by
  have h := (withRetry_contract c3Op c3Options).2.1 2 7 (by decide)
    (fun j hj => by
      have hj2 : j < 2 := hj
      simp [c3Op, hj2, Except.isOk, Except.toBool]) rfl
  exact ⟨h.1, h.2⟩

/-- On-disk state of one cache file as getCachedProdScreenshot observes
it: the stat result (modification time in ms) and the outcome of reading
it (none models a read that throws, e.g. a permission error). -/
structure CacheFileStat where
  mtimeMs : Int
  readable : Option String
deriving DecidableEq, Repr

/-- getCachedProdScreenshot (src/compare-prod-and-preview.ts lines
199-218) for one cache entry: a missing file (stat throws) is a miss;
with the file present, the content is returned only when
now - mtime < cacheTtlMs and the read succeeds; every thrown error is
caught and treated as a miss. -/
def getCachedProdScreenshot (entry : Option CacheFileStat) (nowMs : Int)
    (cacheTtlMs : Int) : Option String :=
  match entry with
  | none => none
  | some stats =>
    let age := nowMs - stats.mtimeMs
    if age < cacheTtlMs then
      match stats.readable with
      | some contents => some contents
      | none => none
    else none

/-- C7: the cache get returns the stored image exactly when the file
exists and now - mtime is strictly below the TTL; stat or read failures
are misses, never errors; an entry written at time T with TTL 1000 ms is
a hit at T+500 and a miss at T+1500. -/
theorem getCachedProdScreenshot_freshness (m nowMs ttl : Int) (img : String) :
    (getCachedProdScreenshot (some ⟨m, some img⟩) nowMs ttl = some img ↔
      nowMs - m < ttl) ∧
    getCachedProdScreenshot none nowMs ttl = none ∧
    getCachedProdScreenshot (some ⟨m, none⟩) nowMs ttl = none ∧
    getCachedProdScreenshot (some ⟨m, some img⟩) (m + 500) 1000 = some img ∧
    getCachedProdScreenshot (some ⟨m, some img⟩) (m + 1500) 1000 = none := by
  refine ⟨?_, rfl, ?_, ?_, ?_⟩
  · constructor
    · intro h
      by_contra hfresh
      rw [getCachedProdScreenshot] at h
      simp only [if_neg hfresh] at h
      exact Option.noConfusion h
    · intro hfresh
      rw [getCachedProdScreenshot]
      simp only [if_pos hfresh]
  · rw [getCachedProdScreenshot]
    split <;> rfl
  · rw [getCachedProdScreenshot]
    rw [if_pos (by simp only []; omega)]
  · rw [getCachedProdScreenshot]
    rw [if_neg (by simp only []; omega)]

/-- Options with retryDelayMs = 3 exhibiting the jitter rounding issue. -/
def c8Options : RetryOptions := { retryDelayMs := some 3 }

theorem computeBaseDelay_c8 : computeBaseDelay c8Options 1 = 3 := by
  unfold computeBaseDelay normMaxRetryDelayMs normRetryDelayMs
    normBackoffMultiplier jsRound c8Options
  norm_num [Int.floor_eq_iff]

theorem jitteredDelayMs_c8 : jitteredDelayMs c8Options 1 0 = 2 := by
  unfold jitteredDelayMs
  rw [computeBaseDelay_c8, show normJitter c8Options = true from rfl]
  have h2 : jsRound ((3 : ℚ) * (4/5 + 0 * (2/5))) = 2 := by
    norm_num [jsRound, Int.floor_eq_iff]
  rw [h2]
  norm_num

/-- C8 counterexample: with retryDelayMs = 3 the pre-jitter delay of the
first failed attempt is 3 ms, yet with random draw 0 the slept delay is
Math.round(3 * 0.8) = 2 ms, strictly below the claimed lower bound
0.8 * 3 = 2.4 ms, so the slept delay does not lie in [0.8, 1.2] times
the computed delay. -/
theorem jitter_bounds_counterexample :
    computeBaseDelay c8Options 1 = 3 ∧
    jitteredDelayMs c8Options 1 0 = 2 ∧
    ¬((4/5 : ℚ) * computeBaseDelay c8Options 1 ≤ jitteredDelayMs c8Options 1 0) := by
  refine ⟨computeBaseDelay_c8, jitteredDelayMs_c8, ?_⟩
  rw [computeBaseDelay_c8, jitteredDelayMs_c8]
  norm_num

/-- C8 (amended): for failed attempt k under the normalized options, the
pre-jitter delay is min(maxDelay, round(baseDelay * multiplier ^ (k-1))),
which coincides with the claim's min(maxDelay, baseDelay * multiplier ^
(k-1)) whenever baseDelay and multiplier are integer-valued; with jitter
enabled and random draw r in [0,1), the slept delay is max(1, round(delay
* (0.8 + 0.4 r))), hence lies within [0.8 * delay - 1/2, 1.2 * delay +
1/2] and is at least 1 (rounding can push it outside the exact
[0.8, 1.2] * delay interval). -/
theorem computeDelay_amended (o : RetryOptions) (k : Nat) (r : ℚ)
    (h0 : 0 ≤ r) (h1 : r < 1) :
    (∀ b m : ℤ, normRetryDelayMs o = (b : ℚ) →
        normBackoffMultiplier o = (m : ℚ) →
        computeBaseDelay o k =
          min (normMaxRetryDelayMs o) ((b : ℚ) * (m : ℚ) ^ (k - 1))) ∧
    (normJitter o = true →
        (4/5 : ℚ) * computeBaseDelay o k - 1/2 ≤ jitteredDelayMs o k r ∧
        jitteredDelayMs o k r ≤ (6/5 : ℚ) * computeBaseDelay o k + 1/2 ∧
        1 ≤ jitteredDelayMs o k r) := by
  have hb1 : (1 : ℚ) ≤ normRetryDelayMs o := le_max_left _ _
  have hm1 : (1 : ℚ) ≤ normBackoffMultiplier o := le_max_left _ _
  have hpow : (1 : ℚ) ≤ normBackoffMultiplier o ^ (k - 1) := one_le_pow₀ hm1
  have hprod : (1 : ℚ) ≤ normRetryDelayMs o * normBackoffMultiplier o ^ (k - 1) := by
    nlinarith
  have hmax1 : (1 : ℚ) ≤ normMaxRetryDelayMs o :=
    le_trans hb1 (le_max_left _ _)
  have hround1 : (1 : ℤ) ≤
      jsRound (normRetryDelayMs o * normBackoffMultiplier o ^ (k - 1)) := by
    rw [jsRound, Int.le_floor]
    push_cast
    linarith
  have hd1 : (1 : ℚ) ≤ computeBaseDelay o k := by
    rw [computeBaseDelay]
    refine le_min hmax1 ?_
    exact_mod_cast hround1
  have hd0 : (0 : ℚ) ≤ computeBaseDelay o k := by linarith
  constructor
  · intro b m hb hm
    rw [computeBaseDelay, hb, hm]
    congr 1
    have hcast : (b : ℚ) * (m : ℚ) ^ (k - 1) = ((b * m ^ (k - 1) : ℤ) : ℚ) := by
      push_cast
      ring
    rw [hcast, jsRound, add_comm, Int.floor_add_int]
    have hhalf : ⌊(1/2 : ℚ)⌋ = 0 := by norm_num [Int.floor_eq_iff]
    rw [hhalf]
    norm_num
  · intro hj
    unfold jitteredDelayMs
    rw [if_pos hj]
    have hf1 : (4/5 : ℚ) ≤ 4/5 + r * (2/5) := by nlinarith
    have hf2 : (4/5 : ℚ) + r * (2/5) ≤ 6/5 := by nlinarith
    have hdf_lb : (4/5 : ℚ) * computeBaseDelay o k ≤
        computeBaseDelay o k * (4/5 + r * (2/5)) := by nlinarith
    have hdf_ub : computeBaseDelay o k * (4/5 + r * (2/5)) ≤
        (6/5 : ℚ) * computeBaseDelay o k := by nlinarith
    have hround_ub : ((jsRound (computeBaseDelay o k * (4/5 + r * (2/5))) : ℤ) : ℚ) ≤
        computeBaseDelay o k * (4/5 + r * (2/5)) + 1/2 := by
      rw [jsRound]
      exact_mod_cast Int.floor_le _
    have hround_lb : computeBaseDelay o k * (4/5 + r * (2/5)) - 1/2 ≤
        ((jsRound (computeBaseDelay o k * (4/5 + r * (2/5))) : ℤ) : ℚ) := by
      rw [jsRound]
      have hfl := Int.sub_one_lt_floor (computeBaseDelay o k * (4/5 + r * (2/5)) + 1/2)
      push_cast at hfl ⊢
      linarith
    refine ⟨?_, ?_, le_max_left _ _⟩
    · have := le_max_right (1 : ℚ)
        ((jsRound (computeBaseDelay o k * (4/5 + r * (2/5))) : ℤ) : ℚ)
      linarith
    · refine max_le (by linarith) (by linarith)

/-- C8 witness: the amended theorem at retryDelayMs = 3, first failed
attempt, random draw one half; both hypotheses are discharged and the
integer-options formula and the jitter lower bound are obtained. -/
theorem computeDelay_amended_witness :
    computeBaseDelay c8Options 1 =
      min (normMaxRetryDelayMs c8Options) ((3 : ℤ) * ((2 : ℤ) : ℚ) ^ (1 - 1 : ℕ)) ∧
    (4/5 : ℚ) * computeBaseDelay c8Options 1 - 1/2 ≤
      jitteredDelayMs c8Options 1 (1/2) := by
  have h := computeDelay_amended c8Options 1 (1/2) (by norm_num) (by norm_num)
  refine ⟨h.1 3 2 ?_ ?_, (h.2 rfl).1⟩
  · unfold normRetryDelayMs c8Options
    norm_num
  · unfold normBackoffMultiplier c8Options
    norm_num

/-- JS-Set-style order-preserving deduplication: keeps the first
occurrence of each element, as iterating a JavaScript Set does. -/
def jsDedupAux {α : Type} [DecidableEq α] (seen : List α) : List α → List α
  | [] => []
  | x :: xs =>
    if x ∈ seen then jsDedupAux seen xs
    else x :: jsDedupAux (x :: seen) xs

/-- Models spreading a JavaScript Set built from a list. -/
def jsDedup {α : Type} [DecidableEq α] (l : List α) : List α :=
  jsDedupAux [] l

theorem jsDedupAux_spec {α : Type} [DecidableEq α] :
    ∀ (l seen : List α),
      (jsDedupAux seen l).Nodup ∧
      (∀ x, x ∈ jsDedupAux seen l ↔ x ∈ l ∧ x ∉ seen) := by
  intro l
  induction l with
  | nil => intro seen; simp [jsDedupAux]
  | cons y ys ih =>
    intro seen
    by_cases hy : y ∈ seen
    · have h := ih seen
      refine ⟨by simp [jsDedupAux, hy, h.1], ?_⟩
      intro x
      rw [jsDedupAux, if_pos hy, h.2 x]
      constructor
      · exact fun hx => ⟨List.mem_cons_of_mem _ hx.1, hx.2⟩
      · rintro ⟨hx1, hx2⟩
        rcases List.mem_cons.mp hx1 with h1 | h1
        · exact absurd (h1 ▸ hy) hx2
        · exact ⟨h1, hx2⟩
    · have h := ih (y :: seen)
      constructor
      · rw [jsDedupAux, if_neg hy]
        refine List.nodup_cons.mpr ⟨?_, h.1⟩
        intro hmem
        exact ((h.2 y).mp hmem).2 (List.mem_cons_self y seen)
      · intro x
        rw [jsDedupAux, if_neg hy]
        rw [List.mem_cons, h.2 x]
        constructor
        · rintro (rfl | ⟨hx1, hx2⟩)
          · exact ⟨List.mem_cons_self _ _, hy⟩
          · exact ⟨List.mem_cons_of_mem _ hx1,
              fun hs => hx2 (List.mem_cons_of_mem _ hs)⟩
        · rintro ⟨hx1, hx2⟩
          rcases List.mem_cons.mp hx1 with h1 | h1
          · exact Or.inl h1
          · by_cases hxy : x = y
            · exact Or.inl hxy
            · exact Or.inr ⟨h1, fun hs => by
                rcases List.mem_cons.mp hs with h2 | h2
                · exact hxy h2
                · exact hx2 h2⟩

theorem jsDedup_nodup {α : Type} [DecidableEq α] (l : List α) :
    (jsDedup l).Nodup :=
  (jsDedupAux_spec l []).1

theorem jsDedup_mem {α : Type} [DecidableEq α] (l : List α) (x : α) :
    x ∈ jsDedup l ↔ x ∈ l := by
  rw [jsDedup, (jsDedupAux_spec l []).2 x]
  simp

/-- Sitemap fetch options (interface SitemapFetchOptions,
src/sitemap-utils.ts lines 11-16), extending the retry options. -/
structure SitemapFetchOptions extends RetryOptions where
  timeoutMs : Option ℚ := none
  maxUrls : Option Int := none
  followNestedSitemaps : Option Bool := none
  maxNestedDepth : Option Int := none

/-- Math.max(0, options.maxNestedDepth ?? DEFAULT_MAX_NESTED_DEPTH),
src/sitemap-utils.ts lines 117-120. -/
def normMaxNestedDepth (o : SitemapFetchOptions) : Nat :=
  (o.maxNestedDepth.getD 8).toNat

/-- options.followNestedSitemaps ?? true, line 121. -/
def normFollowNested (o : SitemapFetchOptions) : Bool :=
  o.followNestedSitemaps.getD true

/-- Result of parsing one sitemap document (interface ParsedSitemap,
src/sitemap-utils.ts lines 18-21). -/
structure ParsedSitemap where
  urls : List String
  nestedSitemaps : List String
deriving DecidableEq, Repr

/-- One fetched sitemap document as parseSitemapXml sees it: the raw
text, plus the text contents of the elements the cheerio selectors
"url > loc" (and variants) and "sitemap > loc" (and variants) find in
it.  The element lists are carried as data because the embedding does
not re-implement the cheerio XML parser; a well-formedness hypothesis
ties them to the raw text where a proof needs it. -/
structure XmlDoc where
  content : String
  urlLocEntries : List String
  sitemapLocEntries : List String
deriving DecidableEq, Repr

/-- The two failure modes of parseSitemapXml: "Sitemap response is not
valid XML." and "No URLs or nested sitemaps found in sitemap XML.". -/
inductive SitemapParseError where
  | notXml
  | noEntries
deriving DecidableEq, Repr

/-- The url loc texts parseSitemapXml collects into its Set: trimmed,
empty ones dropped, deduplicated in first-occurrence order. -/
def effectiveUrlLocs (doc : XmlDoc) : List String :=
  jsDedup ((doc.urlLocEntries.map jsTrim).filter (fun s => s ≠ ""))

/-- The nested sitemap loc texts collected likewise. -/
def effectiveSitemapLocs (doc : XmlDoc) : List String :=
  jsDedup ((doc.sitemapLocEntries.map jsTrim).filter (fun s => s ≠ ""))

/-- parseSitemapXml (src/sitemap-utils.ts lines 31-64): reject documents
whose trimmed text contains no angle bracket; collect url and nested
sitemap locations; reject documents yielding neither. -/
def parseSitemapXml (doc : XmlDoc) : Except SitemapParseError ParsedSitemap :=
  let trimmed := jsTrim doc.content
  if strIncludes trimmed "<" = false then
    .error .notXml
  else
    let urls := effectiveUrlLocs doc
    let nestedSitemaps := effectiveSitemapLocs doc
    if urls = [] ∧ nestedSitemaps = [] then .error .noEntries
    else .ok ⟨urls, nestedSitemaps⟩

/-- A real document's recognized elements only exist when the text has
markup: if cheerio finds an element, the (trimmed) text contains an
angle bracket. -/
def cheerioWellFormed (doc : XmlDoc) : Prop :=
  doc.urlLocEntries ≠ [] ∨ doc.sitemapLocEntries ≠ [] →
    strIncludes (jsTrim doc.content) "<" = true

/-- The failure condition asserted by claim C5: no recognizable entries
AND the document does not begin with an angle bracket. -/
def specParseFailCondition (doc : XmlDoc) : Prop :=
  effectiveUrlLocs doc = [] ∧ effectiveSitemapLocs doc = [] ∧
    strStartsWith doc.content "<" = false

/-- C5 counterexample: the document "<foo/>" begins with an angle
bracket and carries no recognizable url or sitemap loc entries; the code
still raises a parse failure, contradicting the claim's "exactly when
... and fails to begin with a < character". -/
theorem parseSitemapXml_claim_counterexample :
    (parseSitemapXml ⟨"<foo/>", [], []⟩).isOk = false ∧
    ¬ specParseFailCondition ⟨"<foo/>", [], []⟩ := by
  constructor
  · decide
  · intro h
    have h3 := h.2.2
    revert h3
    decide

/-- C5 (amended): under the well-formedness of the cheerio extraction,
parsing fails exactly when the document yields no recognizable url or
nested-sitemap loc entries (whether or not it begins with an angle
bracket); in particular the malformed document "not xml" raises the
not-valid-XML failure rather than returning an empty success, and a
document with at least one recognizable entry parses successfully. -/
theorem parseSitemapXml_fails_iff (doc : XmlDoc)
    (hwf : cheerioWellFormed doc) :
    ((parseSitemapXml doc).isOk = false ↔
      effectiveUrlLocs doc = [] ∧ effectiveSitemapLocs doc = []) ∧
    parseSitemapXml ⟨"not xml", [], []⟩ = .error .notXml := by
  refine ⟨?_, by rfl⟩
  by_cases hlt : strIncludes (jsTrim doc.content) "<" = false
  · have hurl : doc.urlLocEntries = [] := by
      by_contra hne
      rw [hwf (Or.inl hne)] at hlt
      exact Bool.noConfusion hlt
    have hsm : doc.sitemapLocEntries = [] := by
      by_contra hne
      rw [hwf (Or.inr hne)] at hlt
      exact Bool.noConfusion hlt
    rw [parseSitemapXml]
    simp only [hlt, if_true]
    constructor
    · intro _
      constructor
      · rw [effectiveUrlLocs, hurl]
        rfl
      · rw [effectiveSitemapLocs, hsm]
        rfl
    · intro _
      rfl
  · rw [parseSitemapXml]
    simp only [if_neg hlt]
    by_cases hempty : effectiveUrlLocs doc = [] ∧ effectiveSitemapLocs doc = []
    · rw [if_pos hempty]
      simp [Except.isOk, Except.toBool, hempty]
    · rw [if_neg hempty]
      simp [Except.isOk, Except.toBool, hempty]

/-- C5 witness: the amended theorem applied to the malformed document
"not xml" itself, whose well-formedness hypothesis holds vacuously. -/
theorem parseSitemapXml_fails_iff_witness :
    (parseSitemapXml ⟨"not xml", [], []⟩).isOk = false :=
  (parseSitemapXml_fails_iff ⟨"not xml", [], []⟩
    (by intro h; rcases h with h | h <;> exact absurd rfl h)).1.mpr
    (by constructor <;> rfl)

/-- Model of `new URL(candidate, parent)` at the granularity the
resolver needs: absolute http(s) candidates resolve to themselves,
root-relative candidates resolve against the parent's origin, anything
else makes the constructor throw (none). -/
def resolveUrlAgainst (candidate parent : String) : Option String :=
  if strStartsWith candidate "http://" || strStartsWith candidate "https://" then
    some candidate
  else
    match parseOrigin parent with
    | none => none
    | some origin =>
      if strStartsWith candidate "/" then some (origin ++ candidate)
      else none

/-- toAbsoluteUrl (src/sitemap-utils.ts lines 23-29): resolve against the
parent sitemap URL, falling back to the raw candidate when the URL
constructor throws. -/
def toAbsoluteUrl (urlCandidate parentSitemapUrl : String) : String :=
  match resolveUrlAgainst urlCandidate parentSitemapUrl with
  | some u => u
  | none => urlCandidate

/-- Result of one resolution step: the page URLs gathered, the visited
set as mutated (the TS Set is passed by reference), and the trace of
sitemap URLs for which a fetch was issued. -/
structure CollectResult where
  urls : List String
  visited : List String
  fetched : List String
deriving DecidableEq, Repr

mutual
/-- collectSitemapUrls (src/sitemap-utils.ts lines 111-177) with the
network abstracted as world: world u is the parsed-ready document
fetchSitemapContent returns for u, or none when the fetch fails after
retries (that failure, like a parse failure, is logged and contributes
zero URLs).  An already-visited sitemap or one beyond maxNestedDepth
returns no URLs and issues no fetch. -/
def collectSitemapUrls (world : String → Option XmlDoc)
    (options : SitemapFetchOptions) (sitemapUrl : String)
    (visitedSitemaps : List String) (currentDepth : Nat) : CollectResult :=
  if sitemapUrl ∈ visitedSitemaps then ⟨[], visitedSitemaps, []⟩
  else if _h : currentDepth > normMaxNestedDepth options then
    ⟨[], visitedSitemaps, []⟩
  else
    let visited1 := sitemapUrl :: visitedSitemaps
    match world sitemapUrl with
    | none => ⟨[], visited1, [sitemapUrl]⟩
    | some doc =>
      match parseSitemapXml doc with
      | .error _ => ⟨[], visited1, [sitemapUrl]⟩
      | .ok parsed =>
        let urls := parsed.urls.map (fun u => toAbsoluteUrl u sitemapUrl)
        if normFollowNested options = false ∨ parsed.nestedSitemaps = [] then
          ⟨urls, visited1, [sitemapUrl]⟩
        else
          let r := collectNestedSitemaps world options
            (parsed.nestedSitemaps.map (fun s => toAbsoluteUrl s sitemapUrl))
            visited1 (currentDepth + 1)
          ⟨urls ++ r.urls, r.visited, sitemapUrl :: r.fetched⟩
termination_by (normMaxNestedDepth options + 1 - currentDepth, 0)

/-- The for-loop over parsed.nestedSitemaps (lines 165-174), threading
the shared visited set left to right and concatenating the URL lists. -/
def collectNestedSitemaps (world : String → Option XmlDoc)
    (options : SitemapFetchOptions) (sitemaps : List String)
    (visited : List String) (depth : Nat) : CollectResult :=
  match sitemaps with
  | [] => ⟨[], visited, []⟩
  | s :: rest =>
    let r1 := collectSitemapUrls world options s visited depth
    let r2 := collectNestedSitemaps world options rest r1.visited depth
    ⟨r1.urls ++ r2.urls, r2.visited, r1.fetched ++ r2.fetched⟩
termination_by (normMaxNestedDepth options + 1 - depth, sitemaps.length + 1)
end

/-- fetchSitemapUrls (src/sitemap-utils.ts lines 182-205): resolve from
an empty visited set at depth 0, deduplicate, and truncate only when a
positive maxUrls was supplied. -/
def fetchSitemapUrls (world : String → Option XmlDoc) (sitemapUrl : String)
    (options : SitemapFetchOptions) : List String :=
  let r := collectSitemapUrls world options sitemapUrl [] 0
  let uniqueUrls := jsDedup r.urls
  if uniqueUrls = [] then []
  else
    match options.maxUrls with
    | some m => if 0 < m then uniqueUrls.take m.toNat else uniqueUrls
    | none => uniqueUrls

/-- Invariant tying one resolution step to its inputs: the fetch trace
is duplicate-free, disjoint from the incoming visited set, and the
outgoing visited set is exactly the incoming one plus the trace. -/
def CollectInv (visited : List String) (r : CollectResult) : Prop :=
  r.fetched.Nodup ∧ (∀ x ∈ r.fetched, x ∉ visited) ∧
  (∀ x, x ∈ r.visited ↔ x ∈ visited ∨ x ∈ r.fetched)

theorem collectInv_plain (v : List String) : CollectInv v ⟨[], v, []⟩ :=
  ⟨List.nodup_nil, by simp, fun x => by simp⟩

theorem collectInv_single (v : List String) (url : String)
    (urls' : List String) (h : url ∉ v) :
    CollectInv v ⟨urls', url :: v, [url]⟩ := by
  refine ⟨List.nodup_singleton url, ?_, fun x => by
    simp [List.mem_cons, or_comm]⟩
  intro x hx
  rw [List.mem_singleton] at hx
  subst hx
  exact h

theorem collectNested_inv (world : String → Option XmlDoc)
    (options : SitemapFetchOptions) (depth : Nat)
    (hP : ∀ url v, CollectInv v (collectSitemapUrls world options url v depth)) :
    ∀ (sitemaps : List String) (v : List String),
      CollectInv v (collectNestedSitemaps world options sitemaps v depth) := by
  intro sitemaps
  induction sitemaps with
  | nil => intro v; rw [collectNestedSitemaps]; exact collectInv_plain v
  | cons s rest ih =>
    intro v
    rw [collectNestedSitemaps]
    obtain ⟨h1n, h1f, h1v⟩ := hP s v
    obtain ⟨h2n, h2f, h2v⟩ := ih (collectSitemapUrls world options s v depth).visited
    refine ⟨?_, ?_, ?_⟩
    · refine List.Nodup.append h1n h2n ?_
      intro x hx1 hx2
      exact h2f x hx2 ((h1v x).mpr (Or.inr hx1))
    · intro x hx
      rcases List.mem_append.mp hx with hx1 | hx2
      · exact h1f x hx1
      · exact fun hv => h2f x hx2 ((h1v x).mpr (Or.inl hv))
    · intro x
      rw [h2v x, h1v x, List.mem_append]
      tauto

theorem collect_inv_aux (world : String → Option XmlDoc)
    (options : SitemapFetchOptions) :
    ∀ (n : Nat) (depth : Nat), normMaxNestedDepth options + 1 - depth ≤ n →
      ∀ url v, CollectInv v (collectSitemapUrls world options url v depth) := by
  intro n
  induction n with
  | zero =>
    intro depth hd url v
    rw [collectSitemapUrls]
    by_cases hmem : url ∈ v
    · rw [if_pos hmem]
      exact collectInv_plain v
    · rw [if_neg hmem, dif_pos (by omega)]
      exact collectInv_plain v
  | succ n ih =>
    intro depth hd url v
    rw [collectSitemapUrls]
    by_cases hmem : url ∈ v
    · rw [if_pos hmem]
      exact collectInv_plain v
    · rw [if_neg hmem]
      by_cases hdep : depth > normMaxNestedDepth options
      · rw [dif_pos hdep]
        exact collectInv_plain v
      · rw [dif_neg hdep]
        cases hw : world url with
        | none =>
          dsimp only
          exact collectInv_single v url [] hmem
        | some doc =>
          dsimp only
          cases hp : parseSitemapXml doc with
          | error pe =>
            dsimp only
            exact collectInv_single v url [] hmem
          | ok parsed =>
            dsimp only
            by_cases hfol : normFollowNested options = false ∨
                parsed.nestedSitemaps = []
            · rw [if_pos hfol]
              exact collectInv_single v url _ hmem
            · rw [if_neg hfol]
              have hQ := collectNested_inv world options (depth + 1)
                (fun url2 v2 => ih (depth + 1) (by omega) url2 v2)
                (parsed.nestedSitemaps.map (fun s => toAbsoluteUrl s url))
                (url :: v)
              obtain ⟨hn, hf, hv⟩ := hQ
              refine ⟨?_, ?_, ?_⟩
              · refine List.nodup_cons.mpr ⟨?_, hn⟩
                intro hx
                exact hf url hx (List.mem_cons_self url v)
              · intro x hx
                rcases List.mem_cons.mp hx with rfl | hx2
                · exact hmem
                · intro hxv
                  exact hf x hx2 (List.mem_cons_of_mem _ hxv)
              · intro x
                rw [hv x]
                simp [List.mem_cons]
                tauto

/-- C2: for every world of sitemap documents, including cyclic ones,
resolution is total (the functions above terminate by construction); the
trace of fetched sitemap URLs never repeats a URL nor revisits one from
the incoming visited set, so each sitemap URL is fetched at most once
per run; and a sitemap encountered beyond maxNestedDepth contributes no
URLs, issues no fetch, and returns normally (a warning, never an
error). -/
theorem collectSitemapUrls_cycle_safe (world : String → Option XmlDoc)
    (options : SitemapFetchOptions) (url : String) (visited : List String)
    (depth : Nat) :
    (collectSitemapUrls world options url visited depth).fetched.Nodup ∧
    (∀ x ∈ (collectSitemapUrls world options url visited depth).fetched,
      x ∉ visited) ∧
    (depth > normMaxNestedDepth options →
      collectSitemapUrls world options url visited depth = ⟨[], visited, []⟩) := by
  have h := collect_inv_aux world options
    (normMaxNestedDepth options + 1 - depth) depth le_rfl url visited
  refine ⟨h.1, h.2.1, ?_⟩
  intro hdep
  rw [collectSitemapUrls]
  by_cases hmem : url ∈ visited
  · rw [if_pos hmem]
  · rw [if_neg hmem, dif_pos hdep]

/-- Cyclic two-sitemap world: a.xml is an index pointing at b.xml, and
b.xml carries one page URL while pointing back at a.xml. -/
def worldCycle : String → Option XmlDoc := fun u =>
  if u = "https://e.com/a.xml" then
    some ⟨"<sitemapindex><sitemap><loc>https://e.com/b.xml</loc></sitemap></sitemapindex>",
      [], ["https://e.com/b.xml"]⟩
  else if u = "https://e.com/b.xml" then
    some ⟨"<urlset><url><loc>https://e.com/page1</loc></url></urlset>",
      ["https://e.com/page1"], ["https://e.com/a.xml"]⟩
  else none

/-- C2 witness: on the cyclic world, a sitemap reached beyond the
default maxNestedDepth of 8 contributes nothing and the run returns
normally. -/
theorem collectSitemapUrls_cycle_safe_witness :
    collectSitemapUrls worldCycle {} "https://e.com/a.xml" [] 9 =
      ⟨[], [], []⟩ :=
  (collectSitemapUrls_cycle_safe worldCycle {} "https://e.com/a.xml" [] 9).2.2
    (by decide)

/-- C4: the URL list fetchSitemapUrls returns is duplicate-free, and
when a positive maxUrls is supplied the result is the full deduplicated
resolution truncated to its first maxUrls entries (truncation after full
deduplication), so its length is at most maxUrls. -/
theorem fetchSitemapUrls_dedup_truncate (world : String → Option XmlDoc)
    (sitemapUrl : String) (options : SitemapFetchOptions) :
    (fetchSitemapUrls world sitemapUrl options).Nodup ∧
    (∀ m : Int, options.maxUrls = some m → 0 < m →
      fetchSitemapUrls world sitemapUrl options =
        (jsDedup (collectSitemapUrls world options sitemapUrl [] 0).urls).take
          m.toNat ∧
      (fetchSitemapUrls world sitemapUrl options).length ≤ m.toNat) := by
  have hnd : (jsDedup (collectSitemapUrls world options sitemapUrl [] 0).urls).Nodup :=
    jsDedup_nodup _
  constructor
  · rw [fetchSitemapUrls]
    by_cases hempty : jsDedup (collectSitemapUrls world options sitemapUrl [] 0).urls = []
    · rw [if_pos hempty]
      exact List.nodup_nil
    · rw [if_neg hempty]
      cases hm : options.maxUrls with
      | none => exact hnd
      | some m =>
        dsimp only
        by_cases h0 : 0 < m
        · rw [if_pos h0]
          exact hnd.sublist (List.take_sublist _ _)
        · rw [if_neg h0]
          exact hnd
  · intro m hm h0
    have heq : fetchSitemapUrls world sitemapUrl options =
        (jsDedup (collectSitemapUrls world options sitemapUrl [] 0).urls).take
          m.toNat := by
      rw [fetchSitemapUrls]
      by_cases hempty :
          jsDedup (collectSitemapUrls world options sitemapUrl [] 0).urls = []
      · rw [if_pos hempty, hempty, List.take_nil]
      · rw [if_neg hempty, hm]
        dsimp only
        rw [if_pos h0]
    refine ⟨heq, ?_⟩
    rw [heq, List.length_take]
    omega

/-- Options requesting at most two URLs, for the C4 witness. -/
def c4Options : SitemapFetchOptions := { maxUrls := some 2 }

/-- C4 witness: the truncation equation of the theorem at the cyclic
world with maxUrls = 2, hypotheses discharged concretely. -/
theorem fetchSitemapUrls_dedup_truncate_witness :
    fetchSitemapUrls worldCycle "https://e.com/a.xml" c4Options =
      (jsDedup (collectSitemapUrls worldCycle c4Options
        "https://e.com/a.xml" [] 0).urls).take ((2 : Int).toNat) :=
  ((fetchSitemapUrls_dedup_truncate worldCycle "https://e.com/a.xml"
    c4Options).2 2 rfl (by decide)).1

/-- Interface FailedUrl (src/visual-testing-utils.ts lines 38-43). -/
structure FailedUrl where
  url : String
  errorType : ErrorType
  message : String
  timestamp : String
deriving DecidableEq, Repr

/-- URL_FILTERS.excludePatterns (src/compare-prod-and-preview.ts lines
39-48): the six regexes, as substring / suffix tests. -/
def excludePatterns : List (String → Bool) :=
  [ fun u => strIncludes u "/api/",
    fun u => strEndsWith u ".xml",
    fun u => strEndsWith u ".rss",
    fun u => strEndsWith u ".json",
    fun u => strIncludes u "/wp-json/",
    fun u => strIncludes u "/admin/" ]

/-- shouldTestUrl (lines 195-197). -/
def shouldTestUrl (url : String) : Bool :=
  !(excludePatterns.any (fun p => p url))

/-- runVisualTest (src/compare-prod-and-preview.ts lines 259-331) with
the capture/save/compare body abstracted as behavior: behavior url is
the hadChanges boolean the body returns, or the exception it throws
anywhere along capturing, saving, or comparing.  A thrown error is
caught, numbered, classified, and appended to failedUrls, and the target
reports no changes; no exception escapes to the caller. -/
def runVisualTest (behavior : String → Except JsError Bool) (now : String)
    (prodUrl : String) (errorCount : Nat) (failedUrls : List FailedUrl) :
    Bool × Nat × List FailedUrl :=
  match behavior prodUrl with
  | .ok hadChanges => (hadChanges, errorCount, failedUrls)
  | .error e =>
    (false, errorCount + 1,
      failedUrls ++ [⟨prodUrl, classifyError e, getErrorMessage e, now⟩])

/-- The aggregate counters of main (lines 419-422). -/
structure RunTotals where
  processed : Nat
  withChanges : Nat
  errorCount : Nat
  failedUrls : List FailedUrl
deriving DecidableEq, Repr

/-- The task loop of main (lines 425-467): every target is processed by
runVisualTest and the counters updated.  The limiter only bounds how
many tasks run at once; the final counters are interleaving-independent,
so the loop is modelled in scheduling order. -/
def processTargets (behavior : String → Except JsError Bool) (now : String) :
    List String → RunTotals → RunTotals
  | [], st => st
  | url :: rest, st =>
    let r := runVisualTest behavior now url st.errorCount st.failedUrls
    processTargets behavior now rest
      ⟨st.processed + 1,
        if r.1 then st.withChanges + 1 else st.withChanges,
        r.2.1, r.2.2⟩

/-- Target selection in main (lines 405-408): filter the discovered URLs
and apply the optional maxUrls slice (0 is falsy, hence no slicing). -/
def selectTargetUrls (maxUrls : Option Nat) (urlsFromSitemap : List String) :
    List String :=
  let filteredUrls := urlsFromSitemap.filter (fun u => shouldTestUrl u)
  match maxUrls with
  | some m => if m ≠ 0 then filteredUrls.take m else filteredUrls
  | none => filteredUrls

/-- The decision core of main (src/compare-prod-and-preview.ts lines
393-494): return 1 when discovery yields no URLs or filtering leaves no
targets, otherwise process every target and return 0 together with the
final counters (failures only reach the error summary, never the exit
code). -/
def mainRun (world : String → Option XmlDoc)
    (behavior : String → Except JsError Bool) (now sitemapUrl : String)
    (maxUrls : Option Nat) (options : SitemapFetchOptions) : Nat × RunTotals :=
  let urlsFromSitemap := fetchSitemapUrls world sitemapUrl options
  if urlsFromSitemap = [] then (1, ⟨0, 0, 0, []⟩)
  else
    let targetUrls := selectTargetUrls maxUrls urlsFromSitemap
    if targetUrls = [] then (1, ⟨0, 0, 0, []⟩)
    else (0, processTargets behavior now targetUrls ⟨0, 0, 0, []⟩)

/-- The FailureRecord a target contributes: none when its behavior
succeeds, otherwise the classified record runVisualTest appends. -/
def failRecordOf (behavior : String → Except JsError Bool) (now : String)
    (u : String) : Option FailedUrl :=
  match behavior u with
  | .ok _ => none
  | .error e => some ⟨u, classifyError e, getErrorMessage e, now⟩

theorem processTargets_spec (behavior : String → Except JsError Bool)
    (now : String) :
    ∀ (targets : List String) (st : RunTotals),
      (processTargets behavior now targets st).processed =
        st.processed + targets.length ∧
      (processTargets behavior now targets st).failedUrls =
        st.failedUrls ++ targets.filterMap (failRecordOf behavior now) ∧
      (processTargets behavior now targets st).errorCount =
        st.errorCount + (targets.filterMap (failRecordOf behavior now)).length := by
  intro targets
  induction targets with
  | nil => intro st; simp [processTargets]
  | cons u rest ih =>
    intro st
    simp only [processTargets]
    cases hb : behavior u with
    | ok b =>
      simp only [runVisualTest, hb]
      refine ⟨?_, ?_, ?_⟩
      · rw [(ih _).1]
        simp only [List.length_cons]
        omega
      · rw [(ih _).2.1]
        simp [List.filterMap_cons, failRecordOf, hb]
      · rw [(ih _).2.2]
        simp [List.filterMap_cons, failRecordOf, hb]
    | error e =>
      simp only [runVisualTest, hb]
      refine ⟨?_, ?_, ?_⟩
      · rw [(ih _).1]
        simp only [List.length_cons]
        omega
      · rw [(ih _).2.1]
        simp [List.filterMap_cons, failRecordOf, hb]
      · rw [(ih _).2.2]
        simp [List.filterMap_cons, failRecordOf, hb]
        omega

/-- C1: the run exits 0 exactly when URL discovery and post-filter
selection are both nonempty, independent of per-target outcomes; in that
case every target is processed (a failing target never prevents the
rest), each failing target contributes exactly one classified
FailureRecord in order, and the error counter equals the number of
failures. -/
theorem mainRun_isolates_failures (world : String → Option XmlDoc)
    (behavior : String → Except JsError Bool) (now sitemapUrl : String)
    (maxUrls : Option Nat) (options : SitemapFetchOptions) :
    ((mainRun world behavior now sitemapUrl maxUrls options).1 = 0 ↔
      fetchSitemapUrls world sitemapUrl options ≠ [] ∧
      selectTargetUrls maxUrls (fetchSitemapUrls world sitemapUrl options) ≠ []) ∧
    (fetchSitemapUrls world sitemapUrl options ≠ [] →
      selectTargetUrls maxUrls (fetchSitemapUrls world sitemapUrl options) ≠ [] →
      (mainRun world behavior now sitemapUrl maxUrls options).2.processed =
        (selectTargetUrls maxUrls
          (fetchSitemapUrls world sitemapUrl options)).length ∧
      (mainRun world behavior now sitemapUrl maxUrls options).2.failedUrls =
        (selectTargetUrls maxUrls
          (fetchSitemapUrls world sitemapUrl options)).filterMap
          (failRecordOf behavior now) ∧
      (mainRun world behavior now sitemapUrl maxUrls options).2.errorCount =
        ((selectTargetUrls maxUrls
          (fetchSitemapUrls world sitemapUrl options)).filterMap
          (failRecordOf behavior now)).length) := by
  constructor
  · constructor
    · intro h0
      rw [mainRun] at h0
      by_cases h1 : fetchSitemapUrls world sitemapUrl options = []
      · rw [if_pos h1] at h0
        exact absurd h0 (by decide)
      · rw [if_neg h1] at h0
        by_cases h2 : selectTargetUrls maxUrls
            (fetchSitemapUrls world sitemapUrl options) = []
        · rw [if_pos h2] at h0
          exact absurd h0 (by decide)
        · exact ⟨h1, h2⟩
    · rintro ⟨h1, h2⟩
      rw [mainRun, if_neg h1, if_neg h2]
  · intro h1 h2
    have hm : mainRun world behavior now sitemapUrl maxUrls options =
        (0, processTargets behavior now
          (selectTargetUrls maxUrls (fetchSitemapUrls world sitemapUrl options))
          ⟨0, 0, 0, []⟩) := by
      rw [mainRun, if_neg h1, if_neg h2]
    rw [hm]
    have h := processTargets_spec behavior now
      (selectTargetUrls maxUrls (fetchSitemapUrls world sitemapUrl options))
      ⟨0, 0, 0, []⟩
    refine ⟨?_, ?_, ?_⟩
    · rw [h.1]
      simp
    · rw [h.2.1]
      simp
    · rw [h.2.2]
      simp

/-- World with a single flat sitemap of two page URLs. -/
def worldSimple : String → Option XmlDoc := fun u =>
  if u = "https://e.com/sitemap.xml" then
    some ⟨"<urlset><url><loc>https://e.com/a</loc></url><url><loc>https://e.com/b</loc></url></urlset>",
      ["https://e.com/a", "https://e.com/b"], []⟩
  else none

/-- Behavior in which one of the two targets throws during capture. -/
def behaviorOneFails : String → Except JsError Bool := fun u =>
  if u = "https://e.com/b" then
    Except.error (JsError.errObj "screenshot failed")
  else Except.ok false

theorem collect_worldSimple :
    collectSitemapUrls worldSimple {} "https://e.com/sitemap.xml" [] 0 =
      ⟨["https://e.com/a", "https://e.com/b"], ["https://e.com/sitemap.xml"],
        ["https://e.com/sitemap.xml"]⟩ := by
  rw [collectSitemapUrls]
  rfl

theorem fetchSitemapUrls_worldSimple :
    fetchSitemapUrls worldSimple "https://e.com/sitemap.xml" {} =
      ["https://e.com/a", "https://e.com/b"] := by
  unfold fetchSitemapUrls
  rw [collect_worldSimple]
  rfl

/-- C1 witness: on the two-page world where one target throws, the run
still exits 0, both targets are processed, and the failing one is the
single classified FailureRecord. -/
theorem mainRun_isolates_failures_witness :
    (mainRun worldSimple behaviorOneFails "T" "https://e.com/sitemap.xml"
      none {}).1 = 0 ∧
    (mainRun worldSimple behaviorOneFails "T" "https://e.com/sitemap.xml"
      none {}).2.processed = 2 ∧
    (mainRun worldSimple behaviorOneFails "T" "https://e.com/sitemap.xml"
      none {}).2.failedUrls =
      [⟨"https://e.com/b", ErrorType.SCREENSHOT_FAILURE, "screenshot failed",
        "T"⟩] := by
  have hne : fetchSitemapUrls worldSimple "https://e.com/sitemap.xml" {} ≠ [] := by
    rw [fetchSitemapUrls_worldSimple]
    decide
  have hne2 : selectTargetUrls none
      (fetchSitemapUrls worldSimple "https://e.com/sitemap.xml" {}) ≠ [] := by
    rw [fetchSitemapUrls_worldSimple]
    decide
  have h := mainRun_isolates_failures worldSimple behaviorOneFails "T"
    "https://e.com/sitemap.xml" none {}
  obtain ⟨hproc, hfail, _herr⟩ := h.2 hne hne2
  refine ⟨h.1.mpr ⟨hne, hne2⟩, ?_, ?_⟩
  · rw [hproc, fetchSitemapUrls_worldSimple]
    decide
  · rw [hfail, fetchSitemapUrls_worldSimple]
    decide
